import Mathlib

/-!
# Sovereign Sentinel — verification of the spec against the repository

This file gives a shallow embedding of the components the specification
describes: the loan-risk pipeline (parse / flag / tier / rank), the
event-bus broadcast hub, the reconnecting WebSocket client, and the two
dashboard fragments (agent-activity list, PIK-status toggle), and proves
the spec's testable properties about them.

The backend Python modules (`app/forensic_auditor.py`,
`app/websocket_manager.py`) are not present in the repository snapshot —
only their documentation is — so those definitions are modelled from the
spec, as marked in their doc comments.  The frontend WebSocket client
(`lib/websocket.ts`, reproduced in `docs/QUICK_DEMO.md`), the dashboard
page (`app/page.tsx`) and `components/LoanTable.tsx` are present, and
their embeddings are translated directly from that source.
-/

namespace Sentinel

open List

/-! ## Loan risk pipeline data model (spec §3; docs/FORENSIC_AUDITOR_COMPLETE.md) -/

/-- Risk tier: ordered severity classification (spec §3, `riskLevel`). -/
inductive RiskLevel where
  | low
  | medium
  | high
  | critical
deriving DecidableEq, Repr

/-- Numeric severity of a risk tier, for stating monotonicity. -/
def RiskLevel.toNat : RiskLevel → Nat
  | .low => 0
  | .medium => 1
  | .high => 2
  | .critical => 3

/-- A parsed ledger row (spec §3 `LoanRecord`; `frontend/types/index.ts`).
Monetary amounts are modelled as naturals (the spec requires them ≥ 0). -/
structure LoanRecord where
  loanId : String
  borrower : String
  industry : String
  interestType : String
  principalAmount : Nat
  outstandingBalance : Nat
  maturityDate : String
  covenants : List String
deriving DecidableEq, Repr

/-- A flagged loan: a `LoanRecord` plus risk metadata (spec §3 `FlaggedLoan`). -/
structure FlaggedLoan where
  record : LoanRecord
  flagReason : String
  riskLevel : RiskLevel
  correlatedEvent : String
  toggleDetected : Bool
  priorInterestType : Option String
deriving DecidableEq, Repr

/-! ## Flagging and tiering

Modelled from the spec: `app/forensic_auditor.py` (`flag_high_risk_loans`)
is not in the repository snapshot; only
`docs/FORENSIC_AUDITOR_COMPLETE.md` describes it.  The definitions below
follow spec §4.2 and the breakpoints documented at
FORENSIC_AUDITOR_COMPLETE.md lines 30–37. -/

/-- Modelled from the spec: risk tier from `outstandingBalance` with fixed
breakpoints, inclusive on the lower bound, evaluated highest-first
(spec §4.2; FORENSIC_AUDITOR_COMPLETE.md lines 32–36). -/
def assignRiskLevel (balance : Nat) : RiskLevel :=
  if balance ≥ 10000000 then .critical
  else if balance ≥ 5000000 then .high
  else if balance ≥ 1000000 then .medium
  else .low

/-- Modelled from the spec: the flag predicate
`interestType == "PIK" AND industry ∈ riskySectors`, with case-sensitive
exact string equality on the sector (spec §4.2, edge cases in §4.2). -/
def matchesFlagPredicate (riskySectors : List String) (r : LoanRecord) : Bool :=
  r.interestType == "PIK" && riskySectors.contains r.industry

/-- Modelled from the spec: look up a prior observation for a loan id in
the optional `priorRecords` list (spec §4.2 `priorRecords` keyed by
`loanId`). -/
def lookupPrior (priors : List LoanRecord) (id : String) : Option LoanRecord :=
  priors.find? (fun p => p.loanId == id)

/-- Modelled from the spec: the detected PIK toggle for a current record,
if any — the prior observation for the same `loanId` had
`interestType != PIK` while the current one is `PIK`; returns the prior
interest type in that case (spec §4.2; glossary "Toggle"). -/
def toggleOf (priorRecords : Option (List LoanRecord)) (r : LoanRecord) :
    Option String :=
  match priorRecords with
  | none => none
  | some priors =>
    match lookupPrior priors r.loanId with
    | none => none
    | some p =>
      if !(p.interestType == "PIK") && (r.interestType == "PIK") then
        some p.interestType
      else
        none

/-- Modelled from the spec: the flag reason string; a detected toggle is
the strongest signal and is reflected in the reason (spec §4.2). -/
def mkFlagReason (r : LoanRecord) (correlatedEvent : String)
    (toggle : Option String) : String :=
  match toggle with
  | some prior =>
    "PIK toggle detected (" ++ prior ++ " to PIK); PIK loan in risky sector " ++
      r.industry ++ " correlated with " ++ correlatedEvent
  | none =>
    "PIK loan in risky sector " ++ r.industry ++ " correlated with " ++
      correlatedEvent

/-- Modelled from the spec: `flag(records, riskySectors, correlatedEvent,
priorRecords?) → List<FlaggedLoan>` (spec §4.2).  A record is flagged when
`interestType == PIK AND industry ∈ riskySectors`; flagged loans are
tiered from `outstandingBalance` and marked with toggle data when a prior
observation toggled to PIK. -/
def flag (records : List LoanRecord) (riskySectors : List String)
    (correlatedEvent : String) (priorRecords : Option (List LoanRecord)) :
    List FlaggedLoan :=
  (records.filter (matchesFlagPredicate riskySectors)).map (fun r =>
    let toggle := toggleOf priorRecords r
    { record := r
      flagReason := mkFlagReason r correlatedEvent toggle
      riskLevel := assignRiskLevel r.outstandingBalance
      correlatedEvent := correlatedEvent
      toggleDetected := toggle.isSome
      priorInterestType := toggle })

/-! ## Theorems: C1 (flag predicate) and C2 (risk tiering) -/

/-- Field-level characterization of any member of `flag`'s output. -/
lemma mem_flag_fields {records : List LoanRecord} {riskySectors : List String}
    {ev : String} {priors : Option (List LoanRecord)} {fl : FlaggedLoan}
    (h : fl ∈ flag records riskySectors ev priors) :
    fl.record ∈ records ∧
    matchesFlagPredicate riskySectors fl.record = true ∧
    fl.toggleDetected = (toggleOf priors fl.record).isSome ∧
    fl.priorInterestType = toggleOf priors fl.record ∧
    fl.flagReason = mkFlagReason fl.record ev (toggleOf priors fl.record) ∧
    fl.riskLevel = assignRiskLevel fl.record.outstandingBalance ∧
    fl.correlatedEvent = ev := by
  unfold flag at h
  rw [List.mem_map] at h
  obtain ⟨a, ha, rfl⟩ := h
  rw [List.mem_filter] at ha
  exact ⟨ha.1, ha.2, rfl, rfl, rfl, rfl, rfl⟩

/-- Membership characterization of `flag`: shared helper. -/
lemma flag_mem_characterization (records : List LoanRecord)
    (riskySectors : List String) (correlatedEvent : String)
    (priorRecords : Option (List LoanRecord)) (r : LoanRecord) :
    (∃ fl ∈ flag records riskySectors correlatedEvent priorRecords,
        fl.record = r) ↔
      r ∈ records ∧ r.interestType = "PIK" ∧ r.industry ∈ riskySectors := by
  unfold flag
  constructor
  · rintro ⟨fl, hmem, hrec⟩
    rw [List.mem_map] at hmem
    obtain ⟨a, ha, hfl⟩ := hmem
    rw [List.mem_filter] at ha
    have hra : a = r := by
      have h2 : a = fl.record := congrArg FlaggedLoan.record hfl
      exact h2.trans hrec
    subst hra
    refine ⟨ha.1, ?_, ?_⟩
    · have h := ha.2
      unfold matchesFlagPredicate at h
      simp only [Bool.and_eq_true, beq_iff_eq] at h
      exact h.1
    · have h := ha.2
      unfold matchesFlagPredicate at h
      simp only [Bool.and_eq_true] at h
      exact List.elem_iff.mp h.2
  · rintro ⟨hmem, hpik, hsec⟩
    refine ⟨_, List.mem_map_of_mem _ (List.mem_filter.mpr ⟨hmem, ?_⟩), rfl⟩
    unfold matchesFlagPredicate
    simp only [Bool.and_eq_true, beq_iff_eq]
    exact ⟨hpik, List.elem_iff.mpr hsec⟩

/-- **C1.** For every input record, `flag` includes the record in its
output iff the record's `interestType` equals `"PIK"` (exactly) and its
`industry` is a member of `riskySectors` under case-sensitive exact string
equality; no record with a non-PIK `interestType` or an industry outside
`riskySectors` is ever flagged. -/
theorem flag_mem_iff (records : List LoanRecord) (riskySectors : List String)
    (correlatedEvent : String) (priorRecords : Option (List LoanRecord))
    (r : LoanRecord) :
    (∃ fl ∈ flag records riskySectors correlatedEvent priorRecords,
        fl.record = r) ↔
      r ∈ records ∧ r.interestType = "PIK" ∧ r.industry ∈ riskySectors :=
  flag_mem_characterization records riskySectors correlatedEvent priorRecords r

/-- **C2.** The risk tier is a deterministic, monotonic function of
`outstandingBalance` alone, with inclusive lower-bound breakpoints
evaluated highest-first: `critical` iff b ≥ 10,000,000; `high` iff
5,000,000 ≤ b < 10,000,000; `medium` iff 1,000,000 ≤ b < 5,000,000;
`low` iff b < 1,000,000.  Equal balances get equal tiers, and a
zero-balance loan matching the flag predicate is still flagged and tiered
`low`. -/
theorem riskLevel_spec :
    (∀ b : Nat,
      (assignRiskLevel b = .critical ↔ 10000000 ≤ b) ∧
      (assignRiskLevel b = .high ↔ 5000000 ≤ b ∧ b < 10000000) ∧
      (assignRiskLevel b = .medium ↔ 1000000 ≤ b ∧ b < 5000000) ∧
      (assignRiskLevel b = .low ↔ b < 1000000)) ∧
    (∀ b b' : Nat, b ≤ b' →
      (assignRiskLevel b).toNat ≤ (assignRiskLevel b').toNat) ∧
    (∀ r r' : LoanRecord, r.outstandingBalance = r'.outstandingBalance →
      assignRiskLevel r.outstandingBalance =
        assignRiskLevel r'.outstandingBalance) ∧
    (∀ (records : List LoanRecord) (riskySectors : List String)
        (ev : String) (priors : Option (List LoanRecord)) (r : LoanRecord),
      r ∈ records → r.interestType = "PIK" → r.industry ∈ riskySectors →
      r.outstandingBalance = 0 →
      ∃ fl ∈ flag records riskySectors ev priors,
        fl.record = r ∧ fl.riskLevel = .low) := by
  refine ⟨?_, ?_, ?_, ?_⟩
  · intro b
    unfold assignRiskLevel
    refine ⟨?_, ?_, ?_, ?_⟩ <;> split_ifs <;> simp_all <;> omega
  · intro b b' hbb
    unfold assignRiskLevel
    split_ifs <;> simp_all [RiskLevel.toNat] <;> omega
  · intro r r' h
    rw [h]
  · intro records riskySectors ev priors r hmem hpik hsec hbal
    have h := (flag_mem_characterization records riskySectors ev priors r).mpr
      ⟨hmem, hpik, hsec⟩
    obtain ⟨fl, hfl, hrec⟩ := h
    refine ⟨fl, hfl, hrec, ?_⟩
    have hlvl := (mem_flag_fields hfl).2.2.2.2.2.1
    rw [hlvl, hrec, hbal]
    rfl

/-- Witness for C2 at concrete inputs. -/
theorem riskLevel_spec_witness :
    (assignRiskLevel 12500000).toNat ≤ (assignRiskLevel 18000000).toNat ∧
    ∃ fl ∈ flag
        [{ loanId := "L009", borrower := "ZeroCo", industry := "energy",
           interestType := "PIK", principalAmount := 1000000,
           outstandingBalance := 0, maturityDate := "2026-01-01",
           covenants := [] }]
        ["energy"] "crisis" none,
      fl.record.loanId = "L009" ∧ fl.riskLevel = .low := by
  constructor
  · exact riskLevel_spec.2.1 12500000 18000000 (by decide)
  · obtain ⟨fl, hfl, hrec, hlevel⟩ :=
      riskLevel_spec.2.2.2
        [{ loanId := "L009", borrower := "ZeroCo", industry := "energy",
           interestType := "PIK", principalAmount := 1000000,
           outstandingBalance := 0, maturityDate := "2026-01-01",
           covenants := [] }]
        ["energy"] "crisis" none
        { loanId := "L009", borrower := "ZeroCo", industry := "energy",
          interestType := "PIK", principalAmount := 1000000,
          outstandingBalance := 0, maturityDate := "2026-01-01",
          covenants := [] }
        (by simp) rfl (by simp) rfl
    exact ⟨fl, hfl, by rw [hrec], hlevel⟩

/-! ## Ledger parsing (C4)

Modelled from the spec: `parse_ledger` in `app/forensic_auditor.py` is not
in the repository snapshot; spec §4.2 `parseLedger` and the error taxonomy
of §7 describe it. -/

/-- One recorded per-row validation error (spec §7 taxonomy (b)). -/
structure ValidationError where
  rowIndex : Nat
  message : String
deriving DecidableEq, Repr

/-- The distinct configuration-error kind: unreadable source or
unsupported format (spec §7 taxonomy (a)). -/
inductive ConfigurationError where
  | unsupportedFormat (format : String)
  | unreadableSource
deriving DecidableEq, Repr

/-- A raw ledger row before validation: each wire field
(spec §6 LoanRecord wire shape) may be present or absent, and amounts are
raw signed numbers not yet checked against the `≥ 0` requirement of
spec §3. -/
structure RawRow where
  loanId : Option String
  borrower : Option String
  industry : Option String
  interestType : Option String
  principalAmount : Option Int
  outstandingBalance : Option Int
  maturityDate : Option String
  covenants : List String
deriving DecidableEq, Repr

/-- Modelled from the spec: validation of one ledger row — the required
fields (FORENSIC_AUDITOR_COMPLETE.md lines 10–12) must be present and
monetary amounts must be nonnegative (spec §3); otherwise the row is
malformed. -/
def parseRow (row : RawRow) : Except String LoanRecord :=
  match row.loanId, row.borrower, row.industry, row.interestType,
      row.principalAmount, row.outstandingBalance, row.maturityDate with
  | some id, some borrower, some industry, some itype, some pa, some ob,
      some md =>
    if 0 ≤ pa ∧ 0 ≤ ob then
      .ok { loanId := id, borrower := borrower, industry := industry,
            interestType := itype, principalAmount := pa.toNat,
            outstandingBalance := ob.toNat, maturityDate := md,
            covenants := row.covenants }
    else
      .error "negative monetary amount"
  | _, _, _, _, _, _, _ => .error "missing required field"

/-- Whether a raw row is well-formed (its validation succeeds). -/
def rowOk (row : RawRow) : Bool :=
  match parseRow row with
  | .ok _ => true
  | .error _ => false

/-- A ledger source: either readable with a list of raw rows, or
unreadable (spec §7 taxonomy (a)). -/
inductive LedgerSource where
  | readable (rows : List RawRow)
  | unreadable
deriving DecidableEq, Repr

/-- Row-by-row processing: malformed rows are skipped and recorded as
validation errors with their row index; well-formed rows become records
(spec §4.2 partial-failure tolerance). -/
def parseRows : Nat → List RawRow → List LoanRecord × List ValidationError
  | _, [] => ([], [])
  | i, row :: rest =>
    let tail := parseRows (i + 1) rest
    match parseRow row with
    | .ok r => (r :: tail.1, tail.2)
    | .error msg => (tail.1, ⟨i, msg⟩ :: tail.2)

/-- Modelled from the spec: `parseLedger(source, format)` — `format` ∈
{csv, json}; an unsupported format or an unreadable source fails the
whole call with a `ConfigurationError`; otherwise malformed rows are
skipped and recorded while all well-formed records are returned
(spec §4.2, §7). -/
def parseLedger (source : LedgerSource) (format : String) :
    Except ConfigurationError (List LoanRecord × List ValidationError) :=
  if format = "csv" ∨ format = "json" then
    match source with
    | .readable rows => .ok (parseRows 0 rows)
    | .unreadable => .error .unreadableSource
  else
    .error (.unsupportedFormat format)

lemma parseRows_lengths (i : Nat) (rows : List RawRow) :
    (parseRows i rows).1.length = (rows.filter rowOk).length ∧
    (parseRows i rows).2.length = (rows.filter (fun x => !rowOk x)).length := by
  induction rows generalizing i with
  | nil => simp [parseRows]
  | cons row rest ih =>
    have h := ih (i + 1)
    cases hp : parseRow row with
    | ok r =>
      have hrok : rowOk row = true := by unfold rowOk; rw [hp]
      simp only [parseRows, hp]
      simp [List.filter_cons, hrok, h.1, h.2]
    | error msg =>
      have hrok : rowOk row = false := by unfold rowOk; rw [hp]
      simp only [parseRows, hp]
      simp [List.filter_cons, hrok, h.1, h.2]

/-- **C4.** For every readable ledger with a supported format, the parse
succeeds and returns exactly the well-formed rows as records and exactly
the malformed rows as validation errors, with records + errors equal to
the total row count; an unsupported format or an unreadable source fails
the whole call with a `ConfigurationError` (never a silently empty `ok`
result). -/
theorem parseLedger_spec :
    (∀ (rows : List RawRow) (format : String),
      format = "csv" ∨ format = "json" →
      ∃ recs errs,
        parseLedger (.readable rows) format = .ok (recs, errs) ∧
        recs.length = (rows.filter rowOk).length ∧
        errs.length = (rows.filter (fun x => !rowOk x)).length ∧
        recs.length + errs.length = rows.length) ∧
    (∀ (source : LedgerSource) (format : String),
      ¬(format = "csv" ∨ format = "json") →
      parseLedger source format = .error (.unsupportedFormat format)) ∧
    (∀ format : String, format = "csv" ∨ format = "json" →
      parseLedger .unreadable format = .error .unreadableSource) := by
  refine ⟨?_, ?_, ?_⟩
  · intro rows format hfmt
    refine ⟨(parseRows 0 rows).1, (parseRows 0 rows).2, ?_, ?_, ?_, ?_⟩
    · unfold parseLedger
      rw [if_pos hfmt]
    · exact (parseRows_lengths 0 rows).1
    · exact (parseRows_lengths 0 rows).2
    · rw [(parseRows_lengths 0 rows).1, (parseRows_lengths 0 rows).2]
      have h2 := List.length_eq_length_filter_add (l := rows) rowOk
      have h3 : rows.filter (fun x => !rowOk x) = rows.filter (! rowOk ·) :=
        rfl
      rw [h3]
      omega
  · intro source format hfmt
    unfold parseLedger
    rw [if_neg hfmt]
  · intro format hfmt
    unfold parseLedger
    rw [if_pos hfmt]

/-- Witness for C4: a two-row ledger with one well-formed and one
malformed row yields one record and one error, and a `.xlsx` format is a
configuration error. -/
theorem parseLedger_spec_witness :
    (∃ recs errs,
      parseLedger (.readable
        [{ loanId := some "L001", borrower := some "Acme Energy",
           industry := some "energy", interestType := some "PIK",
           principalAmount := some 10000000,
           outstandingBalance := some 12500000,
           maturityDate := some "2026-06-30", covenants := [] },
         { loanId := none, borrower := some "NoId Corp",
           industry := some "tech", interestType := some "Cash",
           principalAmount := some 1, outstandingBalance := some 1,
           maturityDate := some "2027-01-01", covenants := [] }]) "csv" =
        .ok (recs, errs) ∧
      recs.length = 1 ∧ errs.length = 1 ∧ recs.length + errs.length = 2) ∧
    parseLedger .unreadable "xlsx" =
      .error (.unsupportedFormat "xlsx") := by
  constructor
  · obtain ⟨recs, errs, hok, hr, he, hsum⟩ :=
      parseLedger_spec.1
        [{ loanId := some "L001", borrower := some "Acme Energy",
           industry := some "energy", interestType := some "PIK",
           principalAmount := some 10000000,
           outstandingBalance := some 12500000,
           maturityDate := some "2026-06-30", covenants := [] },
         { loanId := none, borrower := some "NoId Corp",
           industry := some "tech", interestType := some "Cash",
           principalAmount := some 1, outstandingBalance := some 1,
           maturityDate := some "2027-01-01", covenants := [] }]
        "csv" (Or.inl rfl)
    refine ⟨recs, errs, hok, ?_, ?_, ?_⟩
    · rw [hr]; rfl
    · rw [he]; rfl
    · rw [hr, he]; rfl
  · exact parseLedger_spec.2.1 .unreadable "xlsx" (by decide)

/-! ## Exposure ranking (C5)

Modelled from the spec: `rank_by_exposure` in `app/forensic_auditor.py`
is not in the repository snapshot; spec §4.2 `rank` specifies a stable
sort by `outstandingBalance` descending. -/

/-- The ranking relation: `a` precedes `b` when `a`'s outstanding balance
is at least `b`'s (descending order by exposure). -/
def exposureGE (a b : FlaggedLoan) : Prop :=
  b.record.outstandingBalance ≤ a.record.outstandingBalance

instance : DecidableRel exposureGE := fun _ _ => Nat.decLe _ _

instance : IsTotal FlaggedLoan exposureGE :=
  ⟨fun a b => (Nat.le_total b.record.outstandingBalance
    a.record.outstandingBalance).imp id id⟩

instance : IsTrans FlaggedLoan exposureGE :=
  ⟨fun _ _ _ hab hbc => Nat.le_trans hbc hab⟩

/-- Modelled from the spec: `rank(flagged)` — stable sort by
`outstandingBalance` descending (spec §4.2). -/
def rank (flagged : List FlaggedLoan) : List FlaggedLoan :=
  flagged.insertionSort exposureGE

/-- **C5.** `rank` sorts by `outstandingBalance` descending, is a
permutation of its input, is stable (two loans with equal balances keep
their original relative order), and is idempotent. -/
theorem rank_spec (l : List FlaggedLoan) :
    List.Sorted exposureGE (rank l) ∧
    List.Perm (rank l) l ∧
    (∀ a b : FlaggedLoan,
      a.record.outstandingBalance = b.record.outstandingBalance →
      [a, b] <+ l → [a, b] <+ rank l) ∧
    rank (rank l) = rank l := by
  refine ⟨List.sorted_insertionSort exposureGE l,
    List.perm_insertionSort exposureGE l, ?_, ?_⟩
  · intro a b hbal hsub
    exact List.pair_sublist_insertionSort (Nat.le_of_eq hbal.symm) hsub
  · exact (List.sorted_insertionSort exposureGE l).insertionSort_eq

/-- Sample loan record for witnesses, parameterized by id and balance. -/
def sampleRecord (id : String) (bal : Nat) : LoanRecord :=
  { loanId := id, borrower := id, industry := "energy",
    interestType := "PIK", principalAmount := bal,
    outstandingBalance := bal, maturityDate := "2026-06-30",
    covenants := [] }

/-- Sample flagged loan for witnesses, parameterized by id and balance. -/
def sampleFlagged (id : String) (bal : Nat) : FlaggedLoan :=
  { record := sampleRecord id bal,
    flagReason := "PIK loan in risky sector energy correlated with crisis",
    riskLevel := assignRiskLevel bal, correlatedEvent := "crisis",
    toggleDetected := false, priorInterestType := none }

/-- Witness for C5: a concrete three-loan list with a balance tie keeps
first-seen order among the tied loans. -/
theorem rank_spec_witness :
    [sampleFlagged "A" 2000000, sampleFlagged "B" 2000000] <+
      rank [sampleFlagged "A" 2000000, sampleFlagged "C" 9500000,
        sampleFlagged "B" 2000000] := by
  refine (rank_spec _).2.2.1 _ _ rfl ?_
  exact List.Sublist.cons₂ _ (List.Sublist.cons _ (List.Sublist.refl _))

/-! ## PIK toggle detection (C7)

Modelled from the spec: the toggle-detection path of
`app/forensic_auditor.py` is not in the repository snapshot; spec §4.2
and frontend/README.md (PIK Toggle Detection) describe it. -/

/-- **C7.** When `priorRecords` is supplied and the prior observation for
a flagged loan's id had `interestType != "PIK"`, the resulting
`FlaggedLoan` has `toggleDetected = true` and `priorInterestType` set to
the prior value, and the toggle is reflected in `flagReason`; when
`priorRecords` is absent or the prior observation was already PIK, no
toggle is marked. -/
theorem toggle_detection_spec :
    (∀ (records priors : List LoanRecord) (riskySectors : List String)
        (ev : String) (r p : LoanRecord) (fl : FlaggedLoan),
      lookupPrior priors r.loanId = some p →
      p.interestType ≠ "PIK" →
      fl ∈ flag records riskySectors ev (some priors) →
      fl.record = r →
      fl.toggleDetected = true ∧
        fl.priorInterestType = some p.interestType ∧
        fl.flagReason =
          "PIK toggle detected (" ++ p.interestType ++
            " to PIK); PIK loan in risky sector " ++ r.industry ++
            " correlated with " ++ ev) ∧
    (∀ (records : List LoanRecord) (riskySectors : List String)
        (ev : String) (fl : FlaggedLoan),
      fl ∈ flag records riskySectors ev none →
      fl.toggleDetected = false ∧ fl.priorInterestType = none) ∧
    (∀ (records priors : List LoanRecord) (riskySectors : List String)
        (ev : String) (r p : LoanRecord) (fl : FlaggedLoan),
      lookupPrior priors r.loanId = some p →
      p.interestType = "PIK" →
      fl ∈ flag records riskySectors ev (some priors) →
      fl.record = r →
      fl.toggleDetected = false ∧ fl.priorInterestType = none) := by
  refine ⟨?_, ?_, ?_⟩
  · intro records priors riskySectors ev r p fl hprior hptype hmem hrec
    obtain ⟨_, hpred, htog, hpit, hreason, -, -⟩ := mem_flag_fields hmem
    rw [hrec] at hpred htog hpit hreason
    have hrpik : r.interestType = "PIK" := by
      unfold matchesFlagPredicate at hpred
      simp only [Bool.and_eq_true, beq_iff_eq] at hpred
      exact hpred.1
    have htval : toggleOf (some priors) r = some p.interestType := by
      simp [toggleOf, hprior, hrpik, hptype]
    rw [htval] at htog hpit hreason
    exact ⟨htog, hpit, hreason⟩
  · intro records riskySectors ev fl hmem
    obtain ⟨-, -, htog, hpit, -, -, -⟩ := mem_flag_fields hmem
    have htval : toggleOf none fl.record = none := rfl
    rw [htval] at htog hpit
    exact ⟨htog, hpit⟩
  · intro records priors riskySectors ev r p fl hprior hptype hmem hrec
    obtain ⟨-, -, htog, hpit, -, -, -⟩ := mem_flag_fields hmem
    rw [hrec] at htog hpit
    have htval : toggleOf (some priors) r = none := by
      simp [toggleOf, hprior, hptype]
    rw [htval] at htog hpit
    exact ⟨htog, hpit⟩

/-- The current PIK observation of loan L001, for witnesses. -/
def sampleCurrent : LoanRecord :=
  { loanId := "L001", borrower := "Acme Energy", industry := "energy",
    interestType := "PIK", principalAmount := 10000000,
    outstandingBalance := 12500000, maturityDate := "2026-06-30",
    covenants := [] }

/-- The prior Cash observation of loan L001, for witnesses. -/
def samplePrior : LoanRecord :=
  { loanId := "L001", borrower := "Acme Energy", industry := "energy",
    interestType := "Cash", principalAmount := 10000000,
    outstandingBalance := 12000000, maturityDate := "2026-06-30",
    covenants := [] }

/-- Witness for C7: a concrete Cash→PIK toggle is detected and reflected,
and the same ledger with no priors marks no toggle. -/
theorem toggle_detection_spec_witness :
    (∃ fl ∈ flag [sampleCurrent] ["energy"] "crisis" (some [samplePrior]),
      fl.toggleDetected = true ∧ fl.priorInterestType = some "Cash") ∧
    (∃ fl ∈ flag [sampleCurrent] ["energy"] "crisis" none,
      fl.toggleDetected = false) := by
  constructor
  · obtain ⟨fl, hfl, hrec⟩ :=
      (flag_mem_characterization [sampleCurrent] ["energy"] "crisis"
        (some [samplePrior]) sampleCurrent).mpr
        ⟨List.mem_singleton_self _, rfl, List.mem_singleton_self _⟩
    have h := toggle_detection_spec.1 [sampleCurrent] [samplePrior]
      ["energy"] "crisis" sampleCurrent samplePrior fl
      (by decide) (by decide) hfl hrec
    exact ⟨fl, hfl, h.1, h.2.1⟩
  · obtain ⟨fl, hfl, hrec⟩ :=
      (flag_mem_characterization [sampleCurrent] ["energy"] "crisis"
        none sampleCurrent).mpr
        ⟨List.mem_singleton_self _, rfl, List.mem_singleton_self _⟩
    exact ⟨fl, hfl,
      (toggle_detection_spec.2.1 [sampleCurrent] ["energy"] "crisis" fl
        hfl).1⟩

/-! ## Event Bus (C3)

Modelled from the spec: `app/websocket_manager.py` (the WebSocketManager
broadcast hub) is not in the repository snapshot; only the implementation
notes in the Dashboard API document describe it.  The definitions below
follow spec §4.1. -/

/-- A bus event (spec §3 Event; §6 wire shape). -/
structure Event where
  type : String
  data : String
  timestamp : String
deriving DecidableEq, Repr

/-- A session: one open channel to a single browser context; `closed`
records that the underlying channel is already closed or failing
(spec §3 Session). -/
structure Session where
  sid : Nat
  closed : Bool
deriving DecidableEq, Repr

/-- The bus state: the active session set (spec §4.1), held with no
ordering guarantee; modelled as the list of registered sessions. -/
structure BusState where
  active : List Session
deriving DecidableEq, Repr

/-- Modelled from the spec: `register(session)` — idempotent add
(spec §4.1). -/
def register (st : BusState) (s : Session) : BusState :=
  if s ∈ st.active then st else ⟨st.active ++ [s]⟩

/-- Modelled from the spec: `unregister(session)` — removes the session,
a no-op when absent (spec §4.1). -/
def unregister (st : BusState) (s : Session) : BusState :=
  ⟨st.active.filter (fun x => x != s)⟩

/-- Modelled from the spec: attempt delivery to one session; delivery to
a closed channel is a `DeliveryError` (spec §7 taxonomy (c)). -/
def deliverTo (s : Session) (e : Event) :
    Except String (Session × Event) :=
  if s.closed then .error "delivery to closed session failed" else .ok (s, e)

/-- Modelled from the spec: the iteration inside `publish` — attempt
delivery to each session in turn; a delivery error triggers that
session's `unregister` and is not propagated (spec §4.1). -/
def publishLoop (e : Event) :
    List Session → BusState → List (Session × Event) × BusState
  | [], st => ([], st)
  | s :: rest, st =>
    match deliverTo s e with
    | .ok d =>
      let r := publishLoop e rest st
      (d :: r.1, r.2)
    | .error _ => publishLoop e rest (unregister st s)

/-- Modelled from the spec: `publish(event)` iterates the current session
set; it is a total function — no delivery error reaches the producer
(spec §4.1, §7 taxonomy (c)). -/
def publish (st : BusState) (e : Event) :
    List (Session × Event) × BusState :=
  publishLoop e st.active st

lemma publishLoop_spec (e : Event) (l : List Session) (st : BusState) :
    (publishLoop e l st).1 =
      (l.filter (fun s => !s.closed)).map (fun s => (s, e)) ∧
    (publishLoop e l st).2.active =
      st.active.filter (fun x => !(x.closed && l.contains x)) := by
  induction l generalizing st with
  | nil => simp [publishLoop]
  | cons s rest ih =>
    by_cases hc : s.closed
    · have hd : deliverTo s e = .error "delivery to closed session failed" := by
        unfold deliverTo
        rw [if_pos hc]
      constructor
      · simp only [publishLoop, hd]
        rw [(ih (unregister st s)).1]
        simp [List.filter_cons, hc]
      · simp only [publishLoop, hd]
        rw [(ih (unregister st s)).2]
        unfold unregister
        rw [List.filter_filter]
        apply List.filter_congr
        intro x _
        by_cases hxs : x = s
        · subst hxs
          simp [hc]
        · have h1 : (x == s) = false := beq_eq_false_iff_ne.mpr hxs
          simp [bne, h1, hxs, List.contains_cons]
    · have hco : s.closed = false := by simpa using hc
      have hd : deliverTo s e = .ok (s, e) := by
        unfold deliverTo
        rw [hco]
        rfl
      constructor
      · simp only [publishLoop, hd]
        rw [(ih st).1]
        simp [List.filter_cons, hco]
      · simp only [publishLoop, hd]
        rw [(ih st).2]
        apply List.filter_congr
        intro x _
        by_cases hxs : x = s
        · subst hxs
          simp [hco]
        · have h1 : (x == s) = false := beq_eq_false_iff_ne.mpr hxs
          simp [h1, hxs, List.contains_cons]

/-- **C3.** Per-session delivery is independent: `publish` delivers the
event exactly to the non-closed registered sessions, removes every closed
session from the active set, and returns normally (it is a total function;
no delivery error escapes to the producer).  In particular with sessions
{S1, S2} where S2 is already closed, S1 receives the event and S2 is
removed. -/
theorem eventBus_publish_spec :
    (∀ (st : BusState) (e : Event),
      (publish st e).1 =
        (st.active.filter (fun s => !s.closed)).map (fun s => (s, e)) ∧
      (publish st e).2.active = st.active.filter (fun s => !s.closed)) ∧
    (∀ (s1 s2 : Session) (e : Event),
      s1.closed = false → s2.closed = true →
      (s1, e) ∈ (publish ⟨[s1, s2]⟩ e).1 ∧
      s1 ∈ (publish ⟨[s1, s2]⟩ e).2.active ∧
      s2 ∉ (publish ⟨[s1, s2]⟩ e).2.active ∧
      (∀ d ∈ (publish ⟨[s1, s2]⟩ e).1, d.1 ≠ s2)) := by
  have hgen : ∀ (st : BusState) (e : Event),
      (publish st e).1 =
        (st.active.filter (fun s => !s.closed)).map (fun s => (s, e)) ∧
      (publish st e).2.active = st.active.filter (fun s => !s.closed) := by
    intro st e
    have h := publishLoop_spec e st.active st
    unfold publish
    refine ⟨h.1, ?_⟩
    rw [h.2]
    apply List.filter_congr
    intro x hx
    have hc : st.active.contains x = true := List.elem_iff.mpr hx
    simp [hc, hx]
  refine ⟨hgen, ?_⟩
  intro s1 s2 e h1 h2
  have h := hgen ⟨[s1, s2]⟩ e
  have hne : s1 ≠ s2 := by
    intro hcon
    rw [hcon, h2] at h1
    exact absurd h1 (by decide)
  refine ⟨?_, ?_, ?_, ?_⟩
  · rw [h.1]
    simp [List.filter_cons, h1, h2]
  · rw [h.2]
    simp [List.filter_cons, h1, h2]
  · rw [h.2]
    simp [List.filter_cons, h1, h2, Ne.symm hne]
  · intro d hd
    rw [h.1] at hd
    simp only [List.mem_map] at hd
    obtain ⟨x, hx, rfl⟩ := hd
    rw [List.mem_filter] at hx
    intro hcon
    have hxe : x = s2 := hcon
    rw [hxe] at hx
    rw [h2] at hx
    exact absurd hx.2 (by decide)

/-- Witness for C3: concrete two-session bus, closed second session. -/
theorem eventBus_publish_spec_witness :
    (⟨1, false⟩, { type := "risk_update", data := "d", timestamp := "t" })
        ∈ (publish ⟨[⟨1, false⟩, ⟨2, true⟩]⟩
          { type := "risk_update", data := "d", timestamp := "t" }).1 ∧
    (⟨2, true⟩ : Session)
        ∉ (publish ⟨[⟨1, false⟩, ⟨2, true⟩]⟩
          { type := "risk_update", data := "d", timestamp := "t" }).2.active := by
  have h := eventBus_publish_spec.2 ⟨1, false⟩ ⟨2, true⟩
    { type := "risk_update", data := "d", timestamp := "t" } rfl rfl
  exact ⟨h.1, h.2.2.1⟩

/-! ## Dashboard agent-activity list (C9)

Embedded from `app/page.tsx` (src/unnamed/part_003 lines 53–58 and
157–162): both the `agent_log` WebSocket subscription and the local
`handleAgentLog` callback update `recentAgentActivity` with
`[log, ...prev].slice(0, 50)`, starting from the initial empty list
(line 22). -/

/-- An agent activity log entry (`frontend/types/index.ts` AgentLog). -/
structure AgentLog where
  timestamp : String
  agent : String
  action : String
  reasoning : String
  outcome : String
deriving DecidableEq, Repr

/-- `handleAgentLog` / the `agent_log` subscription update:
`[log, ...prev].slice(0, 50)` — prepend the new entry and keep the first
50 (part_003 lines 53–58, 157–162). -/
def handleAgentLog (log : AgentLog) (prev : List AgentLog) :
    List AgentLog :=
  (log :: prev).take 50

/-- The `recentAgentActivity` state reached from the initial empty list
(part_003 line 22) after a sequence of agent-log updates, oldest first. -/
def runAgentActivity (logs : List AgentLog) : List AgentLog :=
  logs.foldl (fun acc l => handleAgentLog l acc) []

lemma runAgentActivity_le_aux (logs : List AgentLog)
    (acc : List AgentLog) (hacc : acc.length ≤ 50) :
    (logs.foldl (fun acc l => handleAgentLog l acc) acc).length ≤ 50 := by
  induction logs generalizing acc with
  | nil => simpa using hacc
  | cons l rest ih =>
    simp only [List.foldl_cons]
    exact ih _ (by simp [handleAgentLog])

/-- **C9.** The `recentAgentActivity` list is bounded at 50 entries and
ordered newest-first: every agent-log update prepends the new entry and
truncates to the first 50, so every reachable dashboard state (from the
initial empty list under agent-log updates) has length at most 50, and
the most recent entry is at the head. -/
theorem agent_activity_spec (logs : List AgentLog) (l : AgentLog) :
    (runAgentActivity logs).length ≤ 50 ∧
    runAgentActivity (logs ++ [l]) =
      (l :: runAgentActivity logs).take 50 ∧
    (runAgentActivity (logs ++ [l])).head? = some l := by
  refine ⟨runAgentActivity_le_aux logs [] (by simp), ?_, ?_⟩
  · unfold runAgentActivity
    rw [List.foldl_append]
    rfl
  · unfold runAgentActivity
    rw [List.foldl_append]
    simp [handleAgentLog, List.take_cons]

/-! ## LoanTable PIK-status toggle (C10)

Embedded from `frontend/components/LoanTable.tsx` lines 40–44:
`const newStatus = currentStatus === 'PIK' ? 'Cash' : 'PIK'`. -/

/-- `handleToggleStatus`: the requested new PIK status for a loan given
its current interest type (LoanTable.tsx line 41). -/
def handleToggleStatus (currentStatus : String) : String :=
  if currentStatus == "PIK" then "Cash" else "PIK"

/-- **C10.** The PIK-status toggle maps exactly `"PIK"` to `"Cash"`, and
every other current value — including `"Cash"` and `"Hybrid"` — to
`"PIK"`; toggling a Hybrid loan always requests PIK, never Cash. -/
theorem pik_toggle_mapping :
    handleToggleStatus "PIK" = "Cash" ∧
    (∀ s : String, s ≠ "PIK" → handleToggleStatus s = "PIK") ∧
    handleToggleStatus "Cash" = "PIK" ∧
    handleToggleStatus "Hybrid" = "PIK" := by
  refine ⟨by decide, ?_, by decide, by decide⟩
  intro s hs
  have hb : (s == "PIK") = false := beq_eq_false_iff_ne.mpr hs
  simp [handleToggleStatus, hb]

/-- Witness for C10 at the concrete Hybrid input. -/
theorem pik_toggle_mapping_witness :
    "Hybrid" ≠ "PIK" ∧ handleToggleStatus "Hybrid" = "PIK" :=
  ⟨by decide, pik_toggle_mapping.2.1 "Hybrid" (by decide)⟩

/-! ## Reconnecting WebSocket client (C6)

Embedded from `frontend/lib/websocket.ts` (reproduced verbatim in
`src/docs/QUICK_DEMO.md` lines 163–301): `WebSocketClient` with
`maxReconnectAttempts = 5`, `reconnectDelay = 1000`, `connect()`,
`attemptReconnect()`, the `onopen`/`onclose` handlers and
`disconnect()`. -/

/-- Ready state of the underlying browser WebSocket object. -/
inductive WsReady where
  | connecting
  | opened
  | closed
deriving DecidableEq, Repr

/-- The observable state of `WebSocketClient`: the underlying socket
(`none` when `this.ws === null`), the reconnect attempt counter, the base
reconnect delay, and the delay of the pending reconnect timer when one is
scheduled (websocket.ts lines 164–170). -/
structure ClientState where
  ws : Option WsReady
  reconnectAttempts : Nat
  reconnectDelay : Nat
  reconnectTimeout : Option Nat
deriving DecidableEq, Repr

/-- `maxReconnectAttempts = 5` (websocket.ts line 167). -/
def maxReconnectAttempts : Nat := 5

/-- The initial client state (websocket.ts lines 164–170). -/
def initialClient : ClientState :=
  { ws := none, reconnectAttempts := 0, reconnectDelay := 1000,
    reconnectTimeout := none }

/-- `attemptReconnect()` (websocket.ts lines 213–227): give up once the
attempt counter has reached the maximum; otherwise increment it and
schedule a reconnect timer with delay
`reconnectDelay * 2 ^ (reconnectAttempts - 1)`. -/
def attemptReconnect (st : ClientState) : ClientState :=
  if st.reconnectAttempts ≥ maxReconnectAttempts then st
  else
    let attempts := st.reconnectAttempts + 1
    { st with
      reconnectAttempts := attempts
      reconnectTimeout := some (st.reconnectDelay * 2 ^ (attempts - 1)) }

/-- `connect()` (websocket.ts lines 176–211): return immediately when the
socket is already open, otherwise create a fresh socket in the connecting
state.  Note: `connect()` does not touch `reconnectAttempts`. -/
def connectStep (st : ClientState) : ClientState :=
  if st.ws = some .opened then st
  else { st with ws := some .connecting }

/-- The events driving the client: API calls (`connect()`,
`disconnect()`) and environment callbacks (`onopen`, `onclose`, the
reconnect timer firing). -/
inductive ClientEvent where
  | connectCall
  | openEvt
  | closeEvt
  | timerFire
  | disconnectCall
deriving DecidableEq, Repr

/-- One transition of `WebSocketClient` (websocket.ts): `onopen` resets
the attempt counter and the delay (lines 184–188); `onclose` calls
`attemptReconnect()` (lines 203–206); a firing timer calls `connect()`
(lines 224–226); `disconnect()` cancels the pending timer and drops the
socket (lines 229–239). -/
def clientStep (st : ClientState) : ClientEvent → ClientState
  | .connectCall => connectStep st
  | .openEvt =>
    match st.ws with
    | some .connecting =>
      { st with
        ws := some .opened
        reconnectAttempts := 0
        reconnectDelay := 1000 }
    | _ => st
  | .closeEvt =>
    match st.ws with
    | none => st
    | some _ => attemptReconnect { st with ws := some .closed }
  | .timerFire =>
    match st.reconnectTimeout with
    | none => st
    | some _ => connectStep { st with reconnectTimeout := none }
  | .disconnectCall => { st with reconnectTimeout := none, ws := none }

/-- Run the client from its initial state over a sequence of events. -/
def runClient (evts : List ClientEvent) : ClientState :=
  evts.foldl clientStep initialClient

/-- A trace that exhausts all five reconnect attempts: one initial
connect, five failures each followed by the backoff timer firing, and a
sixth failure that finds the counter at the maximum. -/
def exhaustTrace : List ClientEvent :=
  [.connectCall, .closeEvt, .timerFire, .closeEvt, .timerFire, .closeEvt,
   .timerFire, .closeEvt, .timerFire, .closeEvt, .timerFire, .closeEvt]

/-- **C6 counterexample.**  The claim states that calling `connect()`
after exhaustion "resets the attempt counter and resumes retrying".  In
the code `connect()` never touches `reconnectAttempts` — only a
successful `onopen` resets it — so after the exhaustion trace a
`connect()` call leaves the counter at 5, and a further connection
failure schedules no retry timer at all. -/
theorem reconnect_reset_counterexample :
    (runClient exhaustTrace).reconnectAttempts = 5 ∧
    (runClient exhaustTrace).reconnectTimeout = none ∧
    (runClient (exhaustTrace ++ [.connectCall])).reconnectAttempts = 5 ∧
    (runClient (exhaustTrace ++ [.connectCall, .closeEvt])).reconnectAttempts
      = 5 ∧
    (runClient (exhaustTrace ++ [.connectCall, .closeEvt])).reconnectTimeout
      = none := by
  decide

/-- The reconnect delay constant is never changed from 1000 on any
reachable state. -/
lemma runClient_delay (evts : List ClientEvent) :
    (runClient evts).reconnectDelay = 1000 := by
  suffices h : ∀ st : ClientState, st.reconnectDelay = 1000 →
      (evts.foldl clientStep st).reconnectDelay = 1000 from h initialClient rfl
  induction evts with
  | nil => intro st hst; simpa using hst
  | cons ev rest ih =>
    intro st hst
    simp only [List.foldl_cons]
    apply ih
    cases ev with
    | connectCall =>
      simp only [clientStep, connectStep]
      split
      · exact hst
      · exact hst
    | openEvt =>
      simp only [clientStep]
      split
      · rfl
      · exact hst
    | closeEvt =>
      simp only [clientStep]
      split
      · exact hst
      · simp only [attemptReconnect]
        split
        · exact hst
        · exact hst
    | timerFire =>
      simp only [clientStep]
      split
      · exact hst
      · simp only [connectStep]
        split
        · exact hst
        · exact hst
    | disconnectCall =>
      simp only [clientStep]
      exact hst

lemma attemptReconnect_lt {st : ClientState}
    (h : st.reconnectAttempts < maxReconnectAttempts) :
    attemptReconnect st =
      { st with
        reconnectAttempts := st.reconnectAttempts + 1
        reconnectTimeout :=
          some (st.reconnectDelay * 2 ^ st.reconnectAttempts) } := by
  unfold attemptReconnect
  rw [if_neg (by omega)]
  simp

lemma attemptReconnect_ge {st : ClientState}
    (h : maxReconnectAttempts ≤ st.reconnectAttempts) :
    attemptReconnect st = st := by
  unfold attemptReconnect
  rw [if_pos (by omega)]

lemma clientStep_close_some {st : ClientState} {w : WsReady}
    (hws : st.ws = some w) :
    clientStep st .closeEvt =
      attemptReconnect { st with ws := some .closed } := by
  simp only [clientStep]
  rw [hws]

/-- **C6 (amended).**  On unexpected close the client retries with
exponential backoff: from any reachable state with a live socket and
fewer than the maximum 5 attempts, a close schedules a timer of
`1000 * 2 ^ attempts` ms (1000, 2000, 4000, 8000, 16000) and increments
the counter; once the counter has reached 5, a further close schedules no
timer and leaves the client in a terminal disconnected state (a state,
not an exception).  The attempt counter is reset only by a successful
open; `connect()` after exhaustion makes one fresh connection attempt but
does not reset the counter, so automatic retrying resumes only once a
connection actually opens. -/
theorem reconnect_policy_spec :
    (∀ (evts : List ClientEvent) (w : WsReady),
      (runClient evts).ws = some w →
      (runClient evts).reconnectAttempts < maxReconnectAttempts →
      (runClient (evts ++ [.closeEvt])).reconnectTimeout =
          some (1000 * 2 ^ (runClient evts).reconnectAttempts) ∧
        (runClient (evts ++ [.closeEvt])).reconnectAttempts =
          (runClient evts).reconnectAttempts + 1) ∧
    (∀ (evts : List ClientEvent) (w : WsReady),
      (runClient evts).ws = some w →
      (runClient evts).reconnectAttempts = maxReconnectAttempts →
      (runClient evts).reconnectTimeout = none →
      (runClient (evts ++ [.closeEvt])).reconnectTimeout = none ∧
        (runClient (evts ++ [.closeEvt])).reconnectAttempts =
          maxReconnectAttempts ∧
        (runClient (evts ++ [.closeEvt])).ws = some .closed) ∧
    (∀ st : ClientState,
      (clientStep st .connectCall).reconnectAttempts =
        st.reconnectAttempts) ∧
    (∀ st : ClientState, st.ws = some .connecting →
      (clientStep st .openEvt).reconnectAttempts = 0) := by
  refine ⟨?_, ?_, ?_, ?_⟩
  · intro evts w hws hlt
    have hdelay := runClient_delay evts
    have hrun : runClient (evts ++ [.closeEvt]) =
        clientStep (runClient evts) .closeEvt := by
      unfold runClient
      rw [List.foldl_append]
      rfl
    rw [hrun, clientStep_close_some hws, attemptReconnect_lt (by exact hlt)]
    exact ⟨by rw [show ({ runClient evts with ws := some .closed } :
      ClientState).reconnectDelay = 1000 from hdelay], rfl⟩
  · intro evts w hws hmax htim
    have hrun : runClient (evts ++ [.closeEvt]) =
        clientStep (runClient evts) .closeEvt := by
      unfold runClient
      rw [List.foldl_append]
      rfl
    rw [hrun, clientStep_close_some hws,
      attemptReconnect_ge (by exact Nat.le_of_eq hmax.symm)]
    exact ⟨htim, hmax, rfl⟩
  · intro st
    simp only [clientStep, connectStep]
    split
    · rfl
    · rfl
  · intro st hst
    simp only [clientStep]
    rw [hst]

/-- Witness for the amended C6: concrete backoff delays along the
exhaustion trace, the terminal state, and the counter behavior around
`connect()` and `onopen`. -/
theorem reconnect_policy_spec_witness :
    (runClient ([.connectCall] ++ [.closeEvt])).reconnectTimeout =
        some 1000 ∧
    (runClient ([.connectCall, .closeEvt, .timerFire] ++ [.closeEvt])).reconnectTimeout =
        some 2000 ∧
    (runClient (exhaustTrace ++ [.closeEvt])).reconnectTimeout = none ∧
    (runClient (exhaustTrace ++ [.closeEvt])).ws = some .closed ∧
    (clientStep (runClient exhaustTrace) .connectCall).reconnectAttempts =
        5 ∧
    (clientStep
      { ws := some .connecting
        reconnectAttempts := 5
        reconnectDelay := 1000
        reconnectTimeout := none }
      .openEvt).reconnectAttempts = 0 := by
  refine ⟨?_, ?_, ?_, ?_, ?_, ?_⟩
  · exact (reconnect_policy_spec.1 [.connectCall] .connecting (by decide)
      (by decide)).1
  · exact (reconnect_policy_spec.1 [.connectCall, .closeEvt, .timerFire]
      .connecting (by decide) (by decide)).1
  · exact (reconnect_policy_spec.2.1 exhaustTrace .closed (by decide)
      (by decide) (by decide)).1
  · exact (reconnect_policy_spec.2.1 exhaustTrace .closed (by decide)
      (by decide) (by decide)).2.2
  · rw [reconnect_policy_spec.2.2.1 (runClient exhaustTrace)]
    decide
  · exact reconnect_policy_spec.2.2.2 _ rfl

/-! ## Event Bus under concurrent producers (C8)

Modelled from the spec: `app/websocket_manager.py` is absent from the
repository snapshot; spec §5 requires the session set to be safe under
interleaved register / unregister / publish access by multiple
producers, with per-producer publish order preserved per session and no
cross-producer ordering.  Concurrency is modelled by interleaving atomic
steps: a publish, invoked by an identified producer, snapshots the
active set when it starts and takes the next global start ticket; it
then processes one snapshot session per step, while register /
unregister steps (and other producers' publishes) interleave freely
between those steps.  Each delivery is appended to a global log carrying
the producer id and start ticket, so per-producer order per session is
the statement that, restricted to one producer and one session, the log's
tickets are nondecreasing. -/

/-- One in-flight publish: the invoking producer, its start ticket, its
event, the snapshot of the active set taken when it started, the
snapshot suffix not yet processed, and the deliveries made so far. -/
structure InFlight where
  pid : Nat
  seq : Nat
  event : Event
  snapshot : List Session
  remaining : List Session
  delivered : List (Session × Event)
deriving DecidableEq, Repr

/-- A record in the global delivery log: which producer's publish (by
producer id and start ticket) delivered which event to which session. -/
structure Delivery where
  pid : Nat
  seq : Nat
  sess : Session
  event : Event
deriving DecidableEq, Repr

/-- State of the hub: the shared active set, the in-flight publishes,
the completed publishes (kept with their delivery logs), the global
delivery log, and the next start ticket. -/
structure HubState where
  active : List Session
  inflight : List InFlight
  completed : List InFlight
  log : List Delivery
  nextTicket : Nat
deriving DecidableEq, Repr

/-- The bus starts with an empty session set (spec §4.1). -/
def initHub : HubState :=
  { active := [], inflight := [], completed := [], log := [],
    nextTicket := 0 }

/-- The atomic steps that producers and the bus may interleave. -/
inductive HubAction where
  | register (s : Session)
  | unregister (s : Session)
  | startPublish (pid : Nat) (e : Event)
  | deliverNext (pid : Nat)
deriving DecidableEq, Repr

/-- The in-flight publish of producer `pid`, if any. -/
def findPub (st : HubState) (pid : Nat) : Option InFlight :=
  st.inflight.find? (fun q => q.pid == pid)

/-- Replace producer `pid`'s in-flight publish by `p'`. -/
def replacePub (l : List InFlight) (pid : Nat) (p' : InFlight) :
    List InFlight :=
  l.map (fun q => if q.pid == pid then p' else q)

/-- Modelled from the spec: `publish` invoked by producer `pid` snapshots
the active set and enters the in-flight list with the next start ticket.
Each producer is a single sequential task (spec §5: independent
request-handling tasks), so it calls `publish` again only after its
previous call returned; a start by a producer whose publish is still in
flight is not a realizable step and leaves the state unchanged. -/
def startPub (st : HubState) (pid : Nat) (e : Event) : HubState :=
  match findPub st pid with
  | some _ => st
  | none =>
    { st with
      inflight := st.inflight ++
        [{ pid := pid
           seq := st.nextTicket
           event := e
           snapshot := st.active
           remaining := st.active
           delivered := [] }]
      nextTicket := st.nextTicket + 1 }

/-- Process the given remaining suffix of producer `pid`'s in-flight
publish `p`: deliver to the head session when it is live (appending to
the global log), unregister and skip it when closed; with an empty
suffix the publish completes. -/
def processRem (st : HubState) (pid : Nat) (p : InFlight) :
    List Session → HubState
  | [] =>
    { st with
      inflight := st.inflight.filter (fun q => !(q.pid == pid))
      completed := st.completed ++ [p] }
  | s :: rest =>
    if s.closed then
      { st with
        active := st.active.filter (fun x => x != s)
        inflight := replacePub st.inflight pid { p with remaining := rest } }
    else
      { st with
        inflight := replacePub st.inflight pid
          { p with
            remaining := rest
            delivered := p.delivered ++ [(s, p.event)] }
        log := st.log ++
          [{ pid := p.pid, seq := p.seq, sess := s, event := p.event }] }

/-- Process one snapshot session of in-flight publish `p`. -/
def processPub (st : HubState) (pid : Nat) (p : InFlight) : HubState :=
  processRem st pid p p.remaining

/-- One delivery step of producer `pid`'s in-flight publish.  Total: an
unknown producer or a session already removed from the active set never
fails the step. -/
def deliverStep (st : HubState) (pid : Nat) : HubState :=
  match findPub st pid with
  | none => st
  | some p => processPub st pid p

lemma startPub_busy {st : HubState} {pid : Nat} {q : InFlight}
    (hf : findPub st pid = some q) (e : Event) :
    startPub st pid e = st := by
  unfold startPub
  rw [hf]

lemma startPub_free {st : HubState} {pid : Nat}
    (hf : findPub st pid = none) (e : Event) :
    startPub st pid e =
      { st with
        inflight := st.inflight ++
          [{ pid := pid
             seq := st.nextTicket
             event := e
             snapshot := st.active
             remaining := st.active
             delivered := [] }]
        nextTicket := st.nextTicket + 1 } := by
  unfold startPub
  rw [hf]

lemma deliverStep_none {st : HubState} {pid : Nat}
    (hf : findPub st pid = none) : deliverStep st pid = st := by
  unfold deliverStep
  rw [hf]

lemma deliverStep_some {st : HubState} {pid : Nat} {p : InFlight}
    (hf : findPub st pid = some p) :
    deliverStep st pid = processPub st pid p := by
  unfold deliverStep
  rw [hf]

lemma processPub_done {st : HubState} {pid : Nat} {p : InFlight}
    (hrem : p.remaining = []) :
    processPub st pid p =
      { st with
        inflight := st.inflight.filter (fun q => !(q.pid == pid))
        completed := st.completed ++ [p] } := by
  unfold processPub
  rw [hrem]
  rfl

lemma processPub_closed {st : HubState} {pid : Nat} {p : InFlight}
    {s : Session} {rest : List Session}
    (hrem : p.remaining = s :: rest) (hc : s.closed = true) :
    processPub st pid p =
      { st with
        active := st.active.filter (fun x => x != s)
        inflight :=
          replacePub st.inflight pid { p with remaining := rest } } := by
  unfold processPub
  rw [hrem]
  simp only [processRem]
  rw [if_pos hc]

lemma processPub_live {st : HubState} {pid : Nat} {p : InFlight}
    {s : Session} {rest : List Session}
    (hrem : p.remaining = s :: rest) (hc : s.closed = false) :
    processPub st pid p =
      { st with
        inflight := replacePub st.inflight pid
          { p with
            remaining := rest
            delivered := p.delivered ++ [(s, p.event)] }
        log := st.log ++
          [{ pid := p.pid, seq := p.seq, sess := s,
             event := p.event }] } := by
  unfold processPub
  rw [hrem]
  simp only [processRem]
  rw [if_neg (by simp [hc])]

/-- One atomic hub step: idempotent register, no-op-safe unregister,
snapshotting publish start by an identified producer, or one delivery
step of a producer's in-flight publish. -/
def hubStep (st : HubState) : HubAction → HubState
  | .register s =>
    { st with
      active := if s ∈ st.active then st.active else st.active ++ [s] }
  | .unregister s =>
    { st with active := st.active.filter (fun x => x != s) }
  | .startPublish pid e => startPub st pid e
  | .deliverNext pid => deliverStep st pid

/-- Run the hub from the empty initial state over an interleaving. -/
def runHub (acts : List HubAction) : HubState :=
  acts.foldl hubStep initHub

lemma mem_replacePub {l : List InFlight} {pid : Nat} {p' q : InFlight}
    (hq : q ∈ replacePub l pid p') :
    q = p' ∨ (q ∈ l ∧ (q.pid == pid) = false) := by
  unfold replacePub at hq
  rw [List.mem_map] at hq
  obtain ⟨r, hr, hrq⟩ := hq
  by_cases hpid : (r.pid == pid) = true
  · rw [if_pos hpid] at hrq
    exact Or.inl hrq.symm
  · rw [if_neg hpid] at hrq
    subst hrq
    exact Or.inr ⟨hr, by simpa using hpid⟩

lemma findPub_replacePub {l : List InFlight} {pid : Nat} {p p' : InFlight}
    (hp' : (p'.pid == pid) = true)
    (hf : l.find? (fun q => q.pid == pid) = some p) :
    (replacePub l pid p').find? (fun q => q.pid == pid) = some p' := by
  induction l with
  | nil => simp [List.find?] at hf
  | cons a t ih =>
    unfold replacePub
    rw [List.map_cons]
    by_cases ha : (a.pid == pid) = true
    · rw [if_pos ha]
      simp [List.find?_cons, hp']
    · rw [if_neg ha]
      have ha' : (a.pid == pid) = false := by simpa using ha
      simp only [List.find?_cons, ha', Bool.false_eq_true, if_false] at hf
      simp only [List.find?_cons, ha', Bool.false_eq_true, if_false]
      exact ih hf

/-- The per-publish invariant: the snapshot is duplicate-free, delivered
plus still-to-process occurrences of any session are bounded by its
snapshot occurrences, and every delivery carries the publish's own event
to a snapshot member. -/
def PubInv (p : InFlight) : Prop :=
  p.snapshot.Nodup ∧
  (∀ s : Session,
    (p.delivered.map Prod.fst).count s + p.remaining.count s ≤
      p.snapshot.count s) ∧
  (∀ d ∈ p.delivered, d.2 = p.event ∧ d.1 ∈ p.snapshot)

/-- The hub invariant: the active set is duplicate-free; every publish,
in flight or completed, satisfies its invariant; every log entry's
ticket is bounded by its producer's in-flight ticket and below the next
ticket; per producer the log's tickets are nondecreasing; and in-flight
tickets are below the next ticket. -/
def HubInv (st : HubState) : Prop :=
  st.active.Nodup ∧
  (∀ p ∈ st.inflight ++ st.completed, PubInv p) ∧
  (∀ p ∈ st.inflight, ∀ d ∈ st.log, d.pid = p.pid → d.seq ≤ p.seq) ∧
  (∀ pid : Nat, List.Sorted (· ≤ ·)
    ((st.log.filter (fun d => d.pid == pid)).map Delivery.seq)) ∧
  (∀ d ∈ st.log, d.seq < st.nextTicket) ∧
  (∀ p ∈ st.inflight, p.seq < st.nextTicket)

lemma hubInv_init : HubInv initHub := by
  refine ⟨List.nodup_nil, ?_, ?_, ?_, ?_, ?_⟩
  · intro p hp
    simp [initHub] at hp
  · intro p hp
    simp [initHub] at hp
  · intro pid
    simp [initHub]
  · intro d hd
    simp [initHub] at hd
  · intro p hp
    simp [initHub] at hp

lemma hubInv_step {st : HubState} (h : HubInv st) (a : HubAction) :
    HubInv (hubStep st a) := by
  obtain ⟨hnd, hpub, hlogle, hsort, hlogtick, hinftick⟩ := h
  cases a with
  | register s =>
    refine ⟨?_, hpub, hlogle, hsort, hlogtick, hinftick⟩
    by_cases hmem : s ∈ st.active
    · simpa [hubStep, hmem] using hnd
    · simp only [hubStep, if_neg hmem]
      rw [List.nodup_append]
      refine ⟨hnd, List.nodup_singleton s, ?_⟩
      intro x hx hxs
      rw [List.mem_singleton] at hxs
      subst hxs
      exact hmem hx
  | unregister s =>
    exact ⟨List.Nodup.filter _ hnd, hpub, hlogle, hsort, hlogtick,
      hinftick⟩
  | startPublish pid e =>
    show HubInv (startPub st pid e)
    cases hf : findPub st pid with
    | some q =>
      rw [startPub_busy hf]
      exact ⟨hnd, hpub, hlogle, hsort, hlogtick, hinftick⟩
    | none =>
      rw [startPub_free hf]
      refine ⟨hnd, ?_, ?_, hsort, ?_, ?_⟩
      · intro p hp
        rw [List.append_assoc] at hp
        rw [List.mem_append] at hp
        cases hp with
        | inl hp => exact hpub p (List.mem_append.mpr (Or.inl hp))
        | inr hp =>
          rw [List.mem_append] at hp
          cases hp with
          | inl hp =>
            rw [List.mem_singleton] at hp
            subst hp
            refine ⟨hnd, ?_, ?_⟩
            · intro s
              simp
            · intro d hd
              simp at hd
          | inr hp => exact hpub p (List.mem_append.mpr (Or.inr hp))
      · intro p hp d hd hdp
        rw [List.mem_append] at hp
        cases hp with
        | inl hp => exact hlogle p hp d hd hdp
        | inr hp =>
          rw [List.mem_singleton] at hp
          subst hp
          exact Nat.le_of_lt (hlogtick d hd)
      · intro d hd
        exact Nat.lt_succ_of_lt (hlogtick d hd)
      · intro p hp
        rw [List.mem_append] at hp
        cases hp with
        | inl hp => exact Nat.lt_succ_of_lt (hinftick p hp)
        | inr hp =>
          rw [List.mem_singleton] at hp
          subst hp
          exact Nat.lt_succ_self _
  | deliverNext pid =>
    show HubInv (deliverStep st pid)
    cases hf : findPub st pid with
    | none =>
      rw [deliverStep_none hf]
      exact ⟨hnd, hpub, hlogle, hsort, hlogtick, hinftick⟩
    | some p =>
      rw [deliverStep_some hf]
      have hf' : st.inflight.find? (fun q => q.pid == pid) = some p := hf
      have hpmem : p ∈ st.inflight := List.mem_of_find?_eq_some hf'
      have hppid : (p.pid == pid) = true := by
        have hx := List.find?_some hf'
        exact hx
      have hppid' : p.pid = pid := by simpa using hppid
      have hpinv : PubInv p := hpub p (List.mem_append.mpr (Or.inl hpmem))
      cases hrem : p.remaining with
      | nil =>
        rw [processPub_done hrem]
        refine ⟨hnd, ?_, ?_, hsort, hlogtick, ?_⟩
        · intro q hq
          rw [List.mem_append] at hq
          cases hq with
          | inl hq =>
            rw [List.mem_filter] at hq
            exact hpub q (List.mem_append.mpr (Or.inl hq.1))
          | inr hq =>
            rw [List.mem_append] at hq
            cases hq with
            | inl hq => exact hpub q (List.mem_append.mpr (Or.inr hq))
            | inr hq =>
              rw [List.mem_singleton] at hq
              subst hq
              exact hpinv
        · intro q hq d hd hdq
          rw [List.mem_filter] at hq
          exact hlogle q hq.1 d hd hdq
        · intro q hq
          rw [List.mem_filter] at hq
          exact hinftick q hq.1
      | cons s rest =>
        obtain ⟨hsnd, hcount, hdel⟩ := hpinv
        cases hc : s.closed with
        | true =>
          rw [processPub_closed hrem hc]
          refine ⟨List.Nodup.filter _ hnd, ?_, ?_, hsort, hlogtick, ?_⟩
          · intro q hq
            rw [List.mem_append] at hq
            cases hq with
            | inl hq =>
              cases mem_replacePub hq with
              | inl hq' =>
                subst hq'
                refine ⟨hsnd, ?_, hdel⟩
                intro s'
                have hcs := hcount s'
                rw [hrem] at hcs
                simp only [List.count_cons] at hcs
                show (p.delivered.map Prod.fst).count s' + rest.count s' ≤
                  p.snapshot.count s'
                omega
              | inr hq' =>
                exact hpub q (List.mem_append.mpr (Or.inl hq'.1))
            | inr hq => exact hpub q (List.mem_append.mpr (Or.inr hq))
          · intro q hq d hd hdq
            cases mem_replacePub hq with
            | inl hq' =>
              subst hq'
              exact hlogle p hpmem d hd hdq
            | inr hq' => exact hlogle q hq'.1 d hd hdq
          · intro q hq
            cases mem_replacePub hq with
            | inl hq' =>
              subst hq'
              exact hinftick p hpmem
            | inr hq' => exact hinftick q hq'.1
        | false =>
          rw [processPub_live hrem hc]
          have hsmem : s ∈ p.snapshot := by
            have hcs := hcount s
            rw [hrem] at hcs
            simp only [List.count_cons] at hcs
            have hpos : 0 < p.snapshot.count s := by
              simp at hcs
              omega
            exact List.count_pos_iff.mp hpos
          refine ⟨hnd, ?_, ?_, ?_, ?_, ?_⟩
          · intro q hq
            rw [List.mem_append] at hq
            cases hq with
            | inl hq =>
              cases mem_replacePub hq with
              | inl hq' =>
                subst hq'
                refine ⟨hsnd, ?_, ?_⟩
                · intro s'
                  have hcs := hcount s'
                  rw [hrem] at hcs
                  simp only [List.count_cons] at hcs
                  show ((p.delivered ++ [(s, p.event)]).map
                      Prod.fst).count s' + rest.count s' ≤
                    p.snapshot.count s'
                  simp only [List.map_append, List.count_append,
                    List.map_cons, List.map_nil, List.count_cons,
                    List.count_nil]
                  omega
                · intro d hd
                  show d.2 = p.event ∧ d.1 ∈ p.snapshot
                  rw [List.mem_append] at hd
                  cases hd with
                  | inl hd => exact hdel d hd
                  | inr hd =>
                    rw [List.mem_singleton] at hd
                    subst hd
                    exact ⟨rfl, hsmem⟩
              | inr hq' =>
                exact hpub q (List.mem_append.mpr (Or.inl hq'.1))
            | inr hq => exact hpub q (List.mem_append.mpr (Or.inr hq))
          · intro q hq d hd hdq
            rw [List.mem_append] at hd
            cases mem_replacePub hq with
            | inl hq' =>
              subst hq'
              cases hd with
              | inl hd => exact hlogle p hpmem d hd hdq
              | inr hd =>
                rw [List.mem_singleton] at hd
                subst hd
                exact Nat.le_refl _
            | inr hq' =>
              cases hd with
              | inl hd => exact hlogle q hq'.1 d hd hdq
              | inr hd =>
                rw [List.mem_singleton] at hd
                subst hd
                have hne : q.pid ≠ pid := by simpa using hq'.2
                exact absurd (hdq.symm.trans hppid') hne
          · intro pid'
            show List.Sorted (· ≤ ·)
              (((st.log ++
                  [({ pid := p.pid, seq := p.seq, sess := s,
                      event := p.event } : Delivery)]).filter
                  (fun d => d.pid == pid')).map Delivery.seq)
            rw [List.filter_append]
            by_cases hpd : (p.pid == pid') = true
            · rw [List.filter_singleton]
              have hpd2 :
                  (({ pid := p.pid, seq := p.seq, sess := s,
                      event := p.event } : Delivery).pid == pid') = true :=
                hpd
              simp only [hpd2, cond_true]
              rw [List.map_append]
              refine List.pairwise_append.mpr
                ⟨hsort pid', List.pairwise_singleton _ _, ?_⟩
              intro x hx y hy
              rw [List.map_singleton, List.mem_singleton] at hy
              subst hy
              rw [List.mem_map] at hx
              obtain ⟨d, hdmem, rfl⟩ := hx
              rw [List.mem_filter] at hdmem
              have hdp : d.pid = p.pid := by
                have h1 : d.pid = pid' := by simpa using hdmem.2
                have h2 : p.pid = pid' := by simpa using hpd
                rw [h1, h2]
              exact hlogle p hpmem d hdmem.1 hdp
            · rw [List.filter_singleton]
              have hpd2 :
                  (({ pid := p.pid, seq := p.seq, sess := s,
                      event := p.event } : Delivery).pid == pid') = false := by
                simpa using hpd
              simp only [hpd2, cond_false]
              rw [List.append_nil]
              exact hsort pid'
          · intro d hd
            rw [List.mem_append] at hd
            cases hd with
            | inl hd => exact hlogtick d hd
            | inr hd =>
              rw [List.mem_singleton] at hd
              subst hd
              exact hinftick p hpmem
          · intro q hq
            cases mem_replacePub hq with
            | inl hq' =>
              subst hq'
              exact hinftick p hpmem
            | inr hq' => exact hinftick q hq'.1

lemma hubInv_run (acts : List HubAction) : HubInv (runHub acts) := by
  suffices h : ∀ st : HubState, HubInv st →
      HubInv (acts.foldl hubStep st) from h initHub hubInv_init
  induction acts with
  | nil => intro st hst; simpa using hst
  | cons a rest ih =>
    intro st hst
    simp only [List.foldl_cons]
    exact ih _ (hubInv_step hst a)

/-- **C8.** Under every interleaving of register, unregister, publish
starts and per-session delivery steps by any number of identified
producers: (1) every publish, in flight or completed, has delivered its
event at most once to any session, and only to sessions in its
start-time snapshot — so a session registered during an in-progress
publish is never delivered that event twice; (2) a delivery step always
succeeds and makes progress even when the session being processed was
unregistered mid-publish (the step function is total and strictly
shortens the publish's remaining suffix); (3) per-producer publish order
is preserved per session: restricted to any one producer and any one
session, the delivery log's start tickets are nondecreasing, and tickets
are assigned in publish-invocation order since the ticket counter never
decreases — while no ordering across different producers is imposed;
(4) concurrent publish calls are permitted: publishes of two producers
can be in flight simultaneously. -/
theorem hub_concurrency_spec :
    (∀ (acts : List HubAction) (p : InFlight),
      p ∈ (runHub acts).inflight ++ (runHub acts).completed →
      (∀ s : Session, (p.delivered.map Prod.fst).count s ≤ 1) ∧
      (∀ d ∈ p.delivered, d.2 = p.event ∧ d.1 ∈ p.snapshot)) ∧
    (∀ (st : HubState) (pid : Nat) (p : InFlight) (s : Session)
        (rest : List Session),
      findPub st pid = some p → p.remaining = s :: rest →
      ∃ p', findPub (hubStep st (.deliverNext pid)) pid = some p' ∧
        p'.remaining = rest) ∧
    (∀ (acts : List HubAction) (pid : Nat) (s : Session),
      List.Sorted (· ≤ ·)
        (((runHub acts).log.filter
            (fun d => d.sess == s && d.pid == pid)).map Delivery.seq)) ∧
    (∀ (st : HubState) (a : HubAction),
      st.nextTicket ≤ (hubStep st a).nextTicket) ∧
    (∀ e1 e2 : Event,
      (runHub [.startPublish 1 e1, .startPublish 2 e2]).inflight.length
        = 2) := by
  refine ⟨?_, ?_, ?_, ?_, ?_⟩
  · intro acts p hp
    obtain ⟨-, hpub, -, -, -, -⟩ := hubInv_run acts
    obtain ⟨hsnd, hcount, hdel⟩ := hpub p hp
    refine ⟨?_, hdel⟩
    intro s
    have h1 := hcount s
    have h2 : p.snapshot.count s ≤ 1 :=
      List.nodup_iff_count_le_one.mp hsnd s
    omega
  · intro st pid p s rest hf hrem
    have hf' : st.inflight.find? (fun q => q.pid == pid) = some p := hf
    have hppid : (p.pid == pid) = true := by
      have hx := List.find?_some hf'
      exact hx
    show ∃ p', findPub (deliverStep st pid) pid = some p' ∧
      p'.remaining = rest
    rw [deliverStep_some hf]
    cases hc : s.closed with
    | true =>
      rw [processPub_closed hrem hc]
      refine ⟨{ p with remaining := rest }, ?_, rfl⟩
      exact findPub_replacePub hppid hf'
    | false =>
      rw [processPub_live hrem hc]
      refine ⟨{ p with
        remaining := rest
        delivered := p.delivered ++ [(s, p.event)] }, ?_, rfl⟩
      exact findPub_replacePub hppid hf'
  · intro acts pid s
    have hsort := (hubInv_run acts).2.2.2.1 pid
    have hsub : ((runHub acts).log.filter
        (fun d => d.sess == s && d.pid == pid)).map Delivery.seq <+
        ((runHub acts).log.filter
          (fun d => d.pid == pid)).map Delivery.seq := by
      apply List.Sublist.map
      rw [← List.filter_filter]
      exact List.filter_sublist _
    exact List.Pairwise.sublist hsub hsort
  · intro st a
    cases a with
    | register s => exact Nat.le_refl _
    | unregister s => exact Nat.le_refl _
    | startPublish pid e =>
      show st.nextTicket ≤ (startPub st pid e).nextTicket
      cases hf : findPub st pid with
      | some q =>
        rw [startPub_busy hf]
      | none =>
        rw [startPub_free hf]
        exact Nat.le_succ _
    | deliverNext pid =>
      show st.nextTicket ≤ (deliverStep st pid).nextTicket
      cases hf : findPub st pid with
      | none =>
        rw [deliverStep_none hf]
      | some p =>
        rw [deliverStep_some hf]
        cases hrem : p.remaining with
        | nil =>
          rw [processPub_done hrem]
        | cons s rest =>
          cases hc : s.closed with
          | true =>
            rw [processPub_closed hrem hc]
          | false =>
            rw [processPub_live hrem hc]
  · intro e1 e2
    rfl

/-- Witness for C8 at concrete inputs: after register S1, a publish by
producer 7, and two delivery steps, producer 7's completed publish
delivered its event to S1 exactly once and only to its snapshot; a
delivery step on a concrete mid-flight state succeeds; the (producer 7,
S1) log tickets are sorted; the ticket counter does not decrease on a
register step; and two producers' publishes are in flight
concurrently. -/
theorem hub_concurrency_spec_witness :
    ((⟨7, 0, ⟨"alert", "d", "t"⟩, [⟨1, false⟩], [],
        [(⟨1, false⟩, ⟨"alert", "d", "t"⟩)]⟩ : InFlight) ∈
      (runHub [.register ⟨1, false⟩,
        .startPublish 7 ⟨"alert", "d", "t"⟩,
        .deliverNext 7, .deliverNext 7]).inflight ++
      (runHub [.register ⟨1, false⟩,
        .startPublish 7 ⟨"alert", "d", "t"⟩,
        .deliverNext 7, .deliverNext 7]).completed ∧
      (([((⟨1, false⟩ : Session), (⟨"alert", "d", "t"⟩ : Event))].map
        Prod.fst).count (⟨1, false⟩ : Session) ≤ 1)) ∧
    (∃ p', findPub (hubStep (runHub [.register ⟨1, false⟩,
        .startPublish 7 ⟨"alert", "d", "t"⟩]) (.deliverNext 7)) 7 =
          some p' ∧
      p'.remaining = []) ∧
    List.Sorted (· ≤ ·)
      (((runHub [.register ⟨1, false⟩,
          .startPublish 7 ⟨"alert", "d", "t"⟩,
          .deliverNext 7, .deliverNext 7]).log.filter
          (fun d => d.sess == ⟨1, false⟩ && d.pid == 7)).map
        Delivery.seq) ∧
    initHub.nextTicket ≤
      (hubStep initHub (.register ⟨1, false⟩)).nextTicket ∧
    (runHub [.startPublish 1 ⟨"alert", "d", "t"⟩,
      .startPublish 2 ⟨"risk_update", "d2", "t2"⟩]).inflight.length
        = 2 := by
  refine ⟨⟨?_, ?_⟩, ?_, ?_, ?_, ?_⟩
  · decide
  · exact (hub_concurrency_spec.1
      [.register ⟨1, false⟩, .startPublish 7 ⟨"alert", "d", "t"⟩,
        .deliverNext 7, .deliverNext 7]
      (⟨7, 0, ⟨"alert", "d", "t"⟩, [⟨1, false⟩], [],
        [(⟨1, false⟩, ⟨"alert", "d", "t"⟩)]⟩ : InFlight)
      (by decide)).1 ⟨1, false⟩
  · exact hub_concurrency_spec.2.1
      (runHub [.register ⟨1, false⟩,
        .startPublish 7 ⟨"alert", "d", "t"⟩]) 7
      (⟨7, 0, ⟨"alert", "d", "t"⟩, [⟨1, false⟩], [⟨1, false⟩], []⟩ :
        InFlight)
      ⟨1, false⟩ [] (by decide) rfl
  · exact hub_concurrency_spec.2.2.1
      [.register ⟨1, false⟩, .startPublish 7 ⟨"alert", "d", "t"⟩,
        .deliverNext 7, .deliverNext 7] 7 ⟨1, false⟩
  · exact hub_concurrency_spec.2.2.2.1 initHub (.register ⟨1, false⟩)
  · exact hub_concurrency_spec.2.2.2.2 ⟨"alert", "d", "t"⟩
      ⟨"risk_update", "d2", "t2"⟩

end Sentinel
